import Mathlib

/-!
Shallow embedding of `RustAutoComplete.py` (a Sublime Text plugin that
invokes the `racer` completion engine as a subprocess and parses its
line-oriented output).  Strings are modelled as `List Char`; Python
exceptions are modelled with `Except PyErr`.
-/

/-- Characters of the literal prefix `"MATCH "` checked in `run_racer`. -/
def matchString : List Char := "MATCH ".toList

/-- The `complete-with-snippet` racer command name. -/
def snippetCmdName : List Char := "complete-with-snippet".toList

/-- The `find-definition` racer command name. -/
def defCmdName : List Char := "find-definition".toList

/-- The `"-"` placeholder argument telling racer to read the buffer from stdin. -/
def dashArg : List Char := "-".toList

/-- The platform string compared against `sublime.platform()` on line 220. -/
def windowsName : List Char := "windows".toList

/-- Python exceptions that can escape the modelled code paths:
`FileNotFoundError` from `Popen`, `IndexError` from `parts[i]`,
`ValueError` from `int(...)`. -/
inductive PyErr where
  | fileNotFound : PyErr
  | indexError : PyErr
  | valueError : PyErr
  deriving DecidableEq, Repr

/-- The `Result` class (lines 48-56): one parsed `MATCH` record. -/
structure Result where
  completion : List Char
  snippet : List Char
  row : Int
  column : Int
  path : List Char
  type : List Char
  context : List Char
  deriving DecidableEq, Repr

/-- The decimal digit character for `d` (meaningful for `d < 10`). -/
def digitChar (d : Nat) : Char := Char.ofNat (48 + d)

/-- Fuel-driven decimal rendering, most significant digit first. -/
def natReprAux (fuel : Nat) (n : Nat) : List Char :=
  match fuel with
  | 0 => []
  | fuel + 1 =>
    if n < 10 then [digitChar n]
    else natReprAux fuel (n / 10) ++ [digitChar (n % 10)]

/-- Canonical decimal rendering of a natural number, as Python's `str` yields. -/
def natRepr (n : Nat) : List Char := natReprAux (n + 1) n

/-- Canonical decimal rendering of an integer, as Python's `str` yields. -/
def intRepr (n : Int) : List Char :=
  if n < 0 then '-' :: natRepr n.natAbs else natRepr n.natAbs

/-- Accumulator pass over decimal digits; `none` on the first non-digit. -/
def parseDigitsAux (acc : Nat) : List Char → Option Nat
  | [] => some acc
  | c :: cs => if c.isDigit then parseDigitsAux (acc * 10 + (c.toNat - 48)) cs else none

/-- Parse a nonempty all-digit string to a natural number. -/
def pyIntNonneg (cs : List Char) : Option Nat :=
  match cs with
  | [] => none
  | _ => parseDigitsAux 0 cs

/-- Model of Python's `int(...)` on the strings racer emits: an optional
single sign followed by a nonempty run of decimal digits; `none` models a
raised `ValueError`. -/
def pyInt (cs : List Char) : Option Int :=
  match cs with
  | [] => none
  | c :: rest =>
    if c = '+' then (pyIntNonneg rest).map (fun n : Nat => (n : Int))
    else if c = '-' then (pyIntNonneg rest).map (fun n : Nat => -(n : Int))
    else (pyIntNonneg (c :: rest)).map (fun n : Nat => (n : Int))

/-- Split off everything before the first occurrence of `sep`;
`none` when `sep` does not occur. -/
def splitFirst (sep : Char) : List Char → Option (List Char × List Char)
  | [] => none
  | c :: cs =>
    if c = sep then some ([], cs)
    else (splitFirst sep cs).map (fun p => (c :: p.1, p.2))

/-- Python's `s.split(sep, maxsplit)`: split on `sep` at most `max` times
(so the result has at most `max + 1` parts, and always at least one). -/
def pySplit (sep : Char) : Nat → List Char → List (List Char)
  | 0, cs => [cs]
  | max + 1, cs =>
    match splitFirst sep cs with
    | none => [cs]
    | some (pre, post) => pre :: pySplit sep max post

/-- Join fields with a separator character (inverse of a maximal split). -/
def joinSep (sep : Char) : List (List Char) → List Char
  | [] => []
  | [f] => f
  | f :: g :: gs => f ++ sep :: joinSep sep (g :: gs)

/-- Python's `parts.insert(1, "")` on line 146. -/
def insertSnd (parts : List (List Char)) : List (List Char) :=
  match parts with
  | [] => [[]]
  | p :: rest => p :: [] :: rest

/-- Python's `parts[i]`: `IndexError` when the index is out of range. -/
def listGet (parts : List (List Char)) (i : Nat) : Except PyErr (List Char) :=
  match parts.get? i with
  | some v => Except.ok v
  | none => Except.error PyErr.indexError

/-- Python's `int(...)` with its `ValueError` made explicit. -/
def pyIntE (cs : List Char) : Except PyErr Int :=
  match pyInt cs with
  | some n => Except.ok n
  | none => Except.error PyErr.valueError

/-- `Result.__init__` (lines 49-56): field accesses and conversions in
Python's evaluation order; extra parts beyond the seventh are ignored. -/
def mkResult (parts : List (List Char)) : Except PyErr Result :=
  match listGet parts 0 with
  | Except.error e => Except.error e
  | Except.ok completion =>
  match listGet parts 1 with
  | Except.error e => Except.error e
  | Except.ok snippet =>
  match listGet parts 2 with
  | Except.error e => Except.error e
  | Except.ok rowStr =>
  match pyIntE rowStr with
  | Except.error e => Except.error e
  | Except.ok row =>
  match listGet parts 3 with
  | Except.error e => Except.error e
  | Except.ok colStr =>
  match pyIntE colStr with
  | Except.error e => Except.error e
  | Except.ok column =>
  match listGet parts 4 with
  | Except.error e => Except.error e
  | Except.ok path =>
  match listGet parts 5 with
  | Except.error e => Except.error e
  | Except.ok type =>
  match listGet parts 6 with
  | Except.error e => Except.error e
  | Except.ok context =>
  Except.ok ⟨completion, snippet, row, column, path, type, context⟩

/-- Parsing of one line already known to start with `"MATCH "`
(lines 142-148): strip the prefix, split on `;` (maxsplit 7) for
`complete-with-snippet` or on `,` (maxsplit 6) plus an inserted empty
snippet field for `find-definition`, and build the `Result`. -/
def parseMatchLine (withSnippet : Bool) (line : List Char) : Except PyErr Result :=
  let rest := line.drop matchString.length
  let parts :=
    if withSnippet then pySplit ';' 7 rest
    else insertSnd (pySplit ',' 6 rest)
  mkResult parts

/-- The result-accumulation loop of `run_racer` (lines 139-149): lines not
starting with `"MATCH "` are skipped; a `Result` construction fault aborts
the whole call. -/
def parseOutput (withSnippet : Bool) : List (List Char) → Except PyErr (List Result)
  | [] => Except.ok []
  | line :: rest =>
    if matchString.isPrefixOf line then
      match parseMatchLine withSnippet line with
      | Except.error e => Except.error e
      | Except.ok r =>
        match parseOutput withSnippet rest with
        | Except.error e => Except.error e
        | Except.ok rs => Except.ok (r :: rs)
    else parseOutput withSnippet rest

/-- The diagnostic printed on line 151 when racer exits nonzero: the joined
command line, the exit code, and the captured stdout and stderr. -/
structure Diag where
  cmdLine : List Char
  exitCode : Int
  output : List (List Char)
  err : List Char
  deriving DecidableEq, Repr

/-- Outcome of a completed `run_racer` call: the parsed results and the
failure diagnostic, if one was printed. -/
structure RacerRun where
  results : List Result
  diag : Option Diag
  deriving DecidableEq, Repr

/-- Command-line assembly in `run_racer` (lines 103, 111, 116): the binary
is inserted in front, the context path and `"-"` are appended. -/
def buildCmd (racerBin : List Char) (cmdList : List (List Char)) (contextPath : List Char) :
    List (List Char) :=
  racerBin :: (cmdList ++ [contextPath, dashArg])

/-- `run_racer` (lines 97-152).  The subprocess itself is abstracted by its
observable behaviour: `engineFound = false` models `Popen` raising
`FileNotFoundError`; otherwise `exitCode`, `output` (split into lines) and
`err` are what `communicate`/`wait` return.  On exit code 0 the output is
parsed (faults propagate); otherwise the diagnostic is printed and the
empty result list returned. -/
def run_racer (engineFound : Bool) (racerBin : List Char) (cmdList0 : List (List Char))
    (contextPath : List Char) (exitCode : Int) (output : List (List Char)) (err : List Char) :
    Except PyErr RacerRun :=
  let withSnippet := cmdList0.head? == some snippetCmdName
  let cmdList := buildCmd racerBin cmdList0 contextPath
  if engineFound then
    if exitCode = 0 then
      match parseOutput withSnippet output with
      | Except.error e => Except.error e
      | Except.ok rs => Except.ok ⟨rs, none⟩
    else Except.ok ⟨[], some ⟨joinSep ' ' cmdList, exitCode, output, err⟩⟩
  else Except.error PyErr.fileNotFound

/-- The kind names used as keys of the ranking dictionary (lines 172-178). -/
def moduleKind : List Char := "Module".toList

/-- The `Function` kind name. -/
def functionKind : List Char := "Function".toList

/-- The `Struct` kind name. -/
def structKind : List Char := "Struct".toList

/-- The `Trait` kind name. -/
def traitKind : List Char := "Trait".toList

/-- The `Type` kind name. -/
def typeKind : List Char := "Type".toList

/-- The `Enum` kind name. -/
def enumKind : List Char := "Enum".toList

/-- The sort key `cmp` of `on_query_completions` (lines 171-179): dictionary
lookup with default 100. -/
def kindRank (t : List Char) : Nat :=
  if t = moduleKind then 0
  else if t = functionKind then 1
  else if t = structKind then 2
  else if t = traitKind then 3
  else if t = typeKind then 4
  else if t = enumKind then 5
  else 100

/-- Stable insertion of a record into an already processed list: the new
record goes before the first record of greater-or-equal rank, so that,
folding from the right, earlier records end up before later equal-rank
ones. -/
def stableInsert (x : Result) : List Result → List Result
  | [] => [x]
  | y :: ys =>
    if kindRank x.type ≤ kindRank y.type then x :: y :: ys
    else y :: stableInsert x ys

/-- Model of `sorted(raw_results, key=cmp)` on line 181: a stable sort by
`kindRank` of the record's `type` field. -/
def sortResults : List Result → List Result
  | [] => []
  | x :: xs => stableInsert x (sortResults xs)

/-- Model of Python's `\w` character class on the ASCII characters paths
contain (line 220's regex). -/
def isWordChar (c : Char) : Bool := c.isAlphanum || c = '_'

/-- Whether `re.compile('^\w\:').match(path)` succeeds (line 220). -/
def hasDriveColon (path : List Char) : Bool :=
  match path with
  | c :: ':' :: _ => isWordChar c
  | _ => false

/-- Drive-letter normalization of `RustGotoDefinitionCommand.run`
(lines 217-221): on Windows, a path without a leading drive letter gets
`"c:"` prefixed. -/
def normPath (platform : List Char) (path : List Char) : List Char :=
  if platform = windowsName ∧ hasDriveColon path = false then 'c' :: ':' :: path
  else path

/-- Navigation decision of `RustGotoDefinitionCommand.run` (lines 215-223):
`open_file` is called exactly when one result was parsed, with that
record's normalized path, row and column. -/
def navTarget (platform : List Char) : List Result → Option (List Char × Int × Int)
  | [r] => some (normPath platform r.path, r.row, r.column)
  | _ => none

/-- The `cmd_list` argument built at the completion call site (lines
162-166): `row` and `col` are the editor's 0-based coordinates and only the
row is incremented. -/
def completionCmdArgs (row col : Nat) : List (List Char) :=
  [snippetCmdName, natRepr (row + 1), natRepr col]

/-- The `cmd_list` argument built at the goto-definition call site (lines
210-213): only the row is incremented. -/
def definitionCmdArgs (row col : Nat) : List (List Char) :=
  [defCmdName, natRepr (row + 1), natRepr col]

/-- Observable outcome of `on_query_completions` up to the sorting step:
either the `FileNotFoundError` was caught (message printed, `None`
returned), or the parsed records were stable-sorted for presentation. -/
inductive CompletionOutcome where
  | engineMissing : CompletionOutcome
  | completionsShown (sorted : List Result) (diag : Option Diag) : CompletionOutcome
  deriving DecidableEq, Repr

/-- `RustAutocomplete.on_query_completions` (lines 160-181), up to the
record-sorting step: the racer call is wrapped in
`try ... except FileNotFoundError` (lines 165-169); any other exception
propagates. -/
def on_query_completions_core (engineFound : Bool) (racerBin contextPath : List Char)
    (row col : Nat) (exitCode : Int) (output : List (List Char)) (err : List Char) :
    Except PyErr CompletionOutcome :=
  match run_racer engineFound racerBin (completionCmdArgs row col) contextPath
      exitCode output err with
  | Except.error PyErr.fileNotFound => Except.ok CompletionOutcome.engineMissing
  | Except.error e => Except.error e
  | Except.ok run => Except.ok (CompletionOutcome.completionsShown (sortResults run.results) run.diag)

/-- `RustGotoDefinitionCommand.run` (lines 208-223): the racer call is not
wrapped in any handler, so every exception propagates. -/
def goto_definition_core (platform : List Char) (engineFound : Bool)
    (racerBin contextPath : List Char) (row col : Nat) (exitCode : Int)
    (output : List (List Char)) (err : List Char) :
    Except PyErr (Option (List Char × Int × Int)) :=
  match run_racer engineFound racerBin (definitionCmdArgs row col) contextPath
      exitCode output err with
  | Except.error e => Except.error e
  | Except.ok run => Except.ok (navTarget platform run.results)

/-- Reconstruction of a well-formed 7-field `complete-with-snippet` MATCH
line from a parsed record (the inverse direction of the round-trip
property). -/
def reconstructSnippetLine (r : Result) : List Char :=
  matchString ++ joinSep ';'
    [r.completion, r.snippet, intRepr r.row, intRepr r.column, r.path, r.type, r.context]

example : pySplit ';' 7 "a;b;c".toList = ["a".toList, "b".toList, "c".toList] := by decide

example : pySplit ';' 2 "a;b;c;d".toList = ["a".toList, "b".toList, "c;d".toList] := by decide

example : pyInt "-42".toList = some (-42) := by decide

example : pyInt "4a".toList = none := by decide

example : natRepr 120 = "120".toList := by decide

instance {ε α : Type} [DecidableEq ε] [DecidableEq α] : DecidableEq (Except ε α) :=
  fun a b =>
    match a, b with
    | Except.ok x, Except.ok y =>
      if h : x = y then isTrue (by rw [h]) else isFalse (by intro hh; cases hh; exact h rfl)
    | Except.error x, Except.error y =>
      if h : x = y then isTrue (by rw [h]) else isFalse (by intro hh; cases hh; exact h rfl)
    | Except.ok _, Except.error _ => isFalse (by intro h; cases h)
    | Except.error _, Except.ok _ => isFalse (by intro h; cases h)

example :
    parseMatchLine true "MATCH foo;foo();3;10;/tmp/x.rs;Function;fn foo()".toList =
      Except.ok ⟨"foo".toList, "foo()".toList, 3, 10, "/tmp/x.rs".toList,
        "Function".toList, "fn foo()".toList⟩ := by decide

example :
    parseMatchLine false "MATCH foo,3,10,/tmp/x.rs,Function,fn foo()".toList =
      Except.ok ⟨"foo".toList, [], 3, 10, "/tmp/x.rs".toList,
        "Function".toList, "fn foo()".toList⟩ := by decide

example : parseMatchLine true "MATCH foo".toList = Except.error PyErr.indexError := by decide

/-- `splitFirst` finds nothing in a separator-free string. -/
lemma splitFirst_of_not_mem (sep : Char) :
    ∀ f : List Char, sep ∉ f → splitFirst sep f = none := by
  intro f hf
  induction f with
  | nil => rfl
  | cons c cs ih =>
    have hc : ¬ c = sep := fun h => hf (by simp [h])
    have hcs : sep ∉ cs := fun h => hf (List.mem_cons_of_mem _ h)
    simp [splitFirst, hc, ih hcs]

/-- `splitFirst` splits exactly at the first separator. -/
lemma splitFirst_append (sep : Char) :
    ∀ f rest : List Char, sep ∉ f → splitFirst sep (f ++ sep :: rest) = some (f, rest) := by
  intro f
  induction f with
  | nil => intro rest _; simp [splitFirst]
  | cons c cs ih =>
    intro rest hf
    have hc : ¬ c = sep := fun h => hf (by simp [h])
    have hcs : sep ∉ cs := fun h => hf (List.mem_cons_of_mem _ h)
    simp [splitFirst, hc, ih rest hcs]

/-- Splitting the join of separator-free fields (at most `max + 1` of them)
recovers the fields. -/
lemma pySplit_joinSep_exact (sep : Char) :
    ∀ (fields : List (List Char)) (max : Nat), fields ≠ [] →
      fields.length ≤ max + 1 → (∀ f ∈ fields, sep ∉ f) →
      pySplit sep max (joinSep sep fields) = fields := by
  intro fields
  induction fields with
  | nil => intro max h; exact absurd rfl h
  | cons f fs ih =>
    intro max _ hlen hmem
    match fs, max with
    | [], 0 => simp [joinSep, pySplit]
    | [], m + 1 =>
      have hf : sep ∉ f := hmem f (List.mem_cons_self _ _)
      simp [joinSep, pySplit, splitFirst_of_not_mem sep f hf]
    | g :: gs, 0 => simp at hlen
    | g :: gs, m + 1 =>
      have hf : sep ∉ f := hmem f (List.mem_cons_self _ _)
      have hrec := ih m (by simp) (by simpa using hlen)
        (fun x hx => hmem x (List.mem_cons_of_mem _ hx))
      simp [joinSep, pySplit, splitFirst_append sep f _ hf, hrec]

/-- Splitting the join of more than `max + 1` fields (the first `max` of
them separator-free) yields the first `max` fields and then the joined
remainder as a single final part. -/
lemma pySplit_joinSep_over (sep : Char) :
    ∀ (max : Nat) (fields : List (List Char)), max + 1 ≤ fields.length →
      (∀ f ∈ fields.take max, sep ∉ f) →
      pySplit sep max (joinSep sep fields) =
        fields.take max ++ [joinSep sep (fields.drop max)] := by
  intro max
  induction max with
  | zero => intro fields _ _; simp [pySplit]
  | succ m ih =>
    intro fields hlen hmem
    match fields with
    | [] => simp at hlen
    | f :: fs =>
      match fs with
      | [] => simp at hlen
      | g :: gs =>
        have hf : sep ∉ f := hmem f (by simp)
        have hrec := ih (g :: gs) (by simpa using hlen)
          (fun x hx => hmem x (by simp [List.take_cons]; right; simpa using hx))
        simp [joinSep, pySplit, splitFirst_append sep f _ hf, hrec]

/-- For an actual digit value, `digitChar` produces a decimal digit
character that decodes back to the value and is none of the characters the
protocol treats specially. -/
lemma digitChar_spec (d : Nat) (hd : d < 10) :
    (digitChar d).isDigit = true ∧ (digitChar d).toNat - 48 = d ∧
      digitChar d ≠ ';' ∧ digitChar d ≠ ',' ∧ digitChar d ≠ '+' ∧ digitChar d ≠ '-' := by
  interval_cases d <;> exact ⟨by decide, by decide, by decide, by decide, by decide, by decide⟩

/-- `parseDigitsAux` consumes an appended suffix after the prefix. -/
lemma parseDigitsAux_append :
    ∀ (xs ys : List Char) (acc : Nat),
      parseDigitsAux acc (xs ++ ys) =
        match parseDigitsAux acc xs with
        | none => none
        | some a => parseDigitsAux a ys := by
  intro xs
  induction xs with
  | nil => intro ys acc; simp [parseDigitsAux]
  | cons c cs ih =>
    intro ys acc
    by_cases hc : c.isDigit
    · simp [parseDigitsAux, hc, ih]
    · simp [parseDigitsAux, hc]

/-- Parsing the fuel-driven rendering of `n` adds `n` to the shifted
accumulator, provided the fuel covers `n`. -/
lemma parseDigitsAux_natReprAux :
    ∀ (fuel n acc : Nat), n < 10 ^ fuel →
      parseDigitsAux acc (natReprAux fuel n) =
        some (acc * 10 ^ (natReprAux fuel n).length + n) := by
  intro fuel
  induction fuel with
  | zero =>
    intro n acc hn
    simp at hn
    simp [natReprAux, parseDigitsAux, hn]
  | succ m ih =>
    intro n acc hn
    by_cases h10 : n < 10
    · obtain ⟨hdig, hval, _⟩ := digitChar_spec n h10
      simp [natReprAux, h10, parseDigitsAux, hdig, hval]
    · have hdiv : n / 10 < 10 ^ m := by
        refine Nat.div_lt_of_lt_mul ?_
        calc n < 10 ^ (m + 1) := hn
        _ = 10 * 10 ^ m := by ring
      have hmod : n % 10 < 10 := Nat.mod_lt _ (by norm_num)
      obtain ⟨hdig, hval, _⟩ := digitChar_spec (n % 10) hmod
      rw [natReprAux]
      simp only [h10, if_false]
      rw [parseDigitsAux_append, ih (n / 10) acc hdiv]
      simp [parseDigitsAux, hdig, hval, List.length_append]
      rw [pow_succ]
      have := Nat.div_add_mod n 10
      ring_nf
      omega

/-- A natural number is always below `10 ^ (n + 1)`. -/
lemma lt_ten_pow_succ (n : Nat) : n < 10 ^ (n + 1) := by
  calc n < 2 ^ n := Nat.lt_two_pow n
  _ ≤ 10 ^ n := Nat.pow_le_pow_left (by norm_num) n
  _ < 10 ^ (n + 1) := Nat.pow_lt_pow_right (by norm_num) (Nat.lt_succ_self n)

/-- Parsing the canonical rendering of a natural number recovers it. -/
lemma parseDigitsAux_natRepr (n : Nat) : parseDigitsAux 0 (natRepr n) = some n := by
  have := parseDigitsAux_natReprAux (n + 1) n 0 (lt_ten_pow_succ n)
  simpa [natRepr] using this

/-- Every character of the fuel-driven rendering is a decimal digit. -/
lemma natReprAux_all_digits :
    ∀ (fuel n : Nat), ∀ c ∈ natReprAux fuel n, c.isDigit = true := by
  intro fuel
  induction fuel with
  | zero => intro n c hc; simp [natReprAux] at hc
  | succ m ih =>
    intro n c hc
    by_cases h10 : n < 10
    · simp [natReprAux, h10] at hc
      subst hc
      exact (digitChar_spec n h10).1
    · simp [natReprAux, h10] at hc
      rcases hc with hc | hc
      · exact ih (n / 10) c hc
      · subst hc
        exact (digitChar_spec (n % 10) (Nat.mod_lt _ (by norm_num))).1

/-- Every character of the canonical rendering is a decimal digit. -/
lemma natRepr_all_digits (n : Nat) : ∀ c ∈ natRepr n, c.isDigit = true := by
  intro c hc
  exact natReprAux_all_digits (n + 1) n c hc

/-- The canonical rendering is never empty. -/
lemma natRepr_ne_nil (n : Nat) : natRepr n ≠ [] := by
  unfold natRepr natReprAux
  by_cases h10 : n < 10 <;> simp [h10]

/-- `pyIntNonneg` inverts the canonical natural rendering. -/
lemma pyIntNonneg_natRepr (n : Nat) : pyIntNonneg (natRepr n) = some n := by
  rcases List.exists_cons_of_ne_nil (natRepr_ne_nil n) with ⟨c, rest, hrepr⟩
  have h := parseDigitsAux_natRepr n
  rw [hrepr] at h ⊢
  simpa [pyIntNonneg] using h

/-- A decimal digit character is not a sign character. -/
lemma isDigit_not_sign (c : Char) (hc : c.isDigit = true) : c ≠ '+' ∧ c ≠ '-' := by
  constructor <;> intro h <;> rw [h] at hc <;> simp [Char.isDigit] at hc

/-- Python's `int` inverts the canonical integer rendering. -/
lemma pyInt_intRepr (n : Int) : pyInt (intRepr n) = some n := by
  by_cases hneg : n < 0
  · rw [intRepr, if_pos hneg]
    rw [show pyInt ('-' :: natRepr n.natAbs) =
          (pyIntNonneg (natRepr n.natAbs)).map (fun m : Nat => -(m : Int)) from by simp [pyInt]]
    rw [pyIntNonneg_natRepr, Option.map_some']
    congr 1
    omega
  · rw [intRepr, if_neg hneg]
    rcases List.exists_cons_of_ne_nil (natRepr_ne_nil n.natAbs) with ⟨c, rest, hrepr⟩
    have hcdig : c.isDigit = true :=
      natRepr_all_digits n.natAbs c (by rw [hrepr]; exact List.mem_cons_self _ _)
    obtain ⟨hplus, hminus⟩ := isDigit_not_sign c hcdig
    rw [hrepr]
    rw [show pyInt (c :: rest) = (pyIntNonneg (c :: rest)).map (fun m : Nat => (m : Int)) from by
      simp [pyInt, hplus, hminus]]
    rw [← hrepr, pyIntNonneg_natRepr, Option.map_some']
    congr 1
    omega

/-- The canonical integer rendering never contains a non-digit, non-minus
character such as a field separator. -/
lemma not_mem_intRepr (sep : Char) (hsep : sep.isDigit = false) (hminus : sep ≠ '-')
    (n : Int) : sep ∉ intRepr n := by
  intro hmem
  rw [intRepr] at hmem
  by_cases hneg : n < 0
  · rw [if_pos hneg] at hmem
    rcases List.mem_cons.mp hmem with h | h
    · exact hminus h
    · have := natRepr_all_digits n.natAbs sep h
      rw [hsep] at this
      cases this
  · rw [if_neg hneg] at hmem
    have := natRepr_all_digits n.natAbs sep hmem
    rw [hsep] at this
    cases this

/-- `stableInsert` places the new record after exactly the strictly
lower-ranked records of the processed list. -/
lemma stableInsert_shape (x : Result) :
    ∀ l : List Result, ∃ l₁ l₂, stableInsert x l = l₁ ++ x :: l₂ ∧ l = l₁ ++ l₂ ∧
      ∀ y ∈ l₁, kindRank y.type < kindRank x.type := by
  intro l
  induction l with
  | nil => exact ⟨[], [], rfl, rfl, by simp⟩
  | cons y ys ih =>
    by_cases hle : kindRank x.type ≤ kindRank y.type
    · exact ⟨[], y :: ys, by simp [stableInsert, hle], rfl, by simp⟩
    · obtain ⟨l₁, l₂, h1, h2, h3⟩ := ih
      refine ⟨y :: l₁, l₂, ?_, ?_, ?_⟩
      · simp [stableInsert, hle, h1]
      · simp [h2]
      · intro z hz
        rcases List.mem_cons.mp hz with hz | hz
        · subst hz; omega
        · exact h3 z hz

/-- `stableInsert` is insertion up to permutation. -/
lemma stableInsert_perm (x : Result) (l : List Result) :
    (stableInsert x l).Perm (x :: l) := by
  induction l with
  | nil => exact List.Perm.refl _
  | cons y ys ih =>
    by_cases hle : kindRank x.type ≤ kindRank y.type
    · simp [stableInsert, hle]
    · simp only [stableInsert, hle, if_false]
      exact (ih.cons y).trans (List.Perm.swap x y ys)

/-- The sort of `on_query_completions` permutes the parsed records. -/
lemma sortResults_perm (rs : List Result) : (sortResults rs).Perm rs := by
  induction rs with
  | nil => exact List.Perm.refl _
  | cons x xs ih => exact (stableInsert_perm x (sortResults xs)).trans (ih.cons x)

/-- `stableInsert` preserves sortedness by rank. -/
lemma stableInsert_pairwise (x : Result) (l : List Result)
    (h : l.Pairwise (fun a b => kindRank a.type ≤ kindRank b.type)) :
    (stableInsert x l).Pairwise (fun a b => kindRank a.type ≤ kindRank b.type) := by
  induction l with
  | nil => simp [stableInsert]
  | cons y ys ih =>
    rw [List.pairwise_cons] at h
    obtain ⟨hy, hys⟩ := h
    by_cases hle : kindRank x.type ≤ kindRank y.type
    · rw [stableInsert, if_pos hle, List.pairwise_cons]
      refine ⟨?_, List.pairwise_cons.mpr ⟨hy, hys⟩⟩
      intro z hz
      rcases List.mem_cons.mp hz with hz | hz
      · subst hz; exact hle
      · exact le_trans hle (hy z hz)
    · rw [stableInsert, if_neg hle, List.pairwise_cons]
      refine ⟨?_, ih hys⟩
      intro z hz
      have hz' : z = x ∨ z ∈ ys :=
        List.mem_cons.mp ((stableInsert_perm x ys).mem_iff.mp hz)
      rcases hz' with hz' | hz'
      · subst hz'; omega
      · exact hy z hz'

/-- The sort of `on_query_completions` orders records by nondecreasing
rank. -/
lemma sortResults_pairwise (rs : List Result) :
    (sortResults rs).Pairwise (fun a b => kindRank a.type ≤ kindRank b.type) := by
  induction rs with
  | nil => simp [sortResults]
  | cons x xs ih => exact stableInsert_pairwise x (sortResults xs) ih

/-- `stableInsert` leaves the subsequence of any fixed kind in place, with
the new record in front when it has that kind. -/
lemma filter_stableInsert (t : List Char) (x : Result) (l : List Result) :
    (stableInsert x l).filter (fun r => r.type == t) =
      if x.type == t then x :: l.filter (fun r => r.type == t)
      else l.filter (fun r => r.type == t) := by
  obtain ⟨l₁, l₂, h1, h2, h3⟩ := stableInsert_shape x l
  rw [h1, h2, List.filter_append, List.filter_append]
  by_cases hx : x.type == t
  · have hxt : x.type = t := by simpa using hx
    have hl₁ : l₁.filter (fun r => r.type == t) = [] := by
      rw [List.filter_eq_nil_iff]
      intro y hy hyt
      have hyt' : y.type = t := by simpa using hyt
      have := h3 y hy
      rw [hyt', hxt] at this
      omega
    simp [hl₁, hx]
  · simp [hx]

/-- Stability of the sort: for every kind value, the records of that kind
appear in the sorted list exactly in their original relative order. -/
lemma filter_sortResults (t : List Char) (rs : List Result) :
    (sortResults rs).filter (fun r => r.type == t) = rs.filter (fun r => r.type == t) := by
  induction rs with
  | nil => simp [sortResults]
  | cons x xs ih =>
    rw [sortResults, filter_stableInsert]
    by_cases hx : x.type == t
    · simp [hx, ih]
    · simp [hx, ih]

/-- A list is a `isPrefixOf`-prefix of itself followed by anything. -/
lemma isPrefixOf_append_self (l₁ l₂ : List Char) : l₁.isPrefixOf (l₁ ++ l₂) = true := by
  induction l₁ with
  | nil => cases l₂ <;> rfl
  | cons c cs ih => simp [List.isPrefixOf, ih]

/-- `Result` construction from an explicitly listed run of at least seven
parts: the first seven become the fields, any tail is ignored. -/
lemma mkResult_explicit (p0 p1 p2 p3 p4 p5 p6 : List Char) (tail : List (List Char))
    (n2 n3 : Int) (h2 : pyInt p2 = some n2) (h3 : pyInt p3 = some n3) :
    mkResult (p0 :: p1 :: p2 :: p3 :: p4 :: p5 :: p6 :: tail) =
      Except.ok ⟨p0, p1, n2, n3, p4, p5, p6⟩ := by
  simp [mkResult, listGet, pyIntE, h2, h3]

/-- Parsing a well-formed 7-field snippet-style MATCH line yields the
record of its fields. -/
lemma parseMatchLine_snippet (f0 f1 f2 f3 f4 f5 f6 : List Char) (n2 n3 : Int)
    (h0 : ';' ∉ f0) (h1 : ';' ∉ f1) (h2 : ';' ∉ f2) (h3 : ';' ∉ f3)
    (h4 : ';' ∉ f4) (h5 : ';' ∉ f5) (h6 : ';' ∉ f6)
    (h2i : pyInt f2 = some n2) (h3i : pyInt f3 = some n3) :
    parseMatchLine true (matchString ++ joinSep ';' [f0, f1, f2, f3, f4, f5, f6]) =
      Except.ok ⟨f0, f1, n2, n3, f4, f5, f6⟩ := by
  have hsplit := pySplit_joinSep_exact ';' [f0, f1, f2, f3, f4, f5, f6] 7 (by simp)
    (by simp) ?_
  · rw [parseMatchLine]
    simp only [List.drop_left, if_true]
    rw [hsplit]
    exact mkResult_explicit f0 f1 f2 f3 f4 f5 f6 [] n2 n3 h2i h3i
  · intro f hf
    simp only [List.mem_cons, List.not_mem_nil, or_false] at hf
    rcases hf with rfl | rfl | rfl | rfl | rfl | rfl | rfl <;> assumption

/-- Parsing a snippet-style MATCH line with more than seven fields still
succeeds: the record is built from the first seven fields and the text
after the seventh `;` is dropped. -/
lemma parseMatchLine_snippet_extra (f0 f1 f2 f3 f4 f5 f6 g : List Char)
    (gs : List (List Char)) (n2 n3 : Int)
    (h0 : ';' ∉ f0) (h1 : ';' ∉ f1) (h2 : ';' ∉ f2) (h3 : ';' ∉ f3)
    (h4 : ';' ∉ f4) (h5 : ';' ∉ f5) (h6 : ';' ∉ f6)
    (h2i : pyInt f2 = some n2) (h3i : pyInt f3 = some n3) :
    parseMatchLine true
        (matchString ++ joinSep ';' (f0 :: f1 :: f2 :: f3 :: f4 :: f5 :: f6 :: g :: gs)) =
      Except.ok ⟨f0, f1, n2, n3, f4, f5, f6⟩ := by
  have hsplit := pySplit_joinSep_over ';' 7 (f0 :: f1 :: f2 :: f3 :: f4 :: f5 :: f6 :: g :: gs)
    (by simp) ?_
  · rw [parseMatchLine]
    simp only [List.drop_left, if_true]
    rw [hsplit]
    simp only [List.take_succ_cons, List.take_zero, List.drop_succ_cons, List.drop_zero]
    exact mkResult_explicit f0 f1 f2 f3 f4 f5 f6 _ n2 n3 h2i h3i
  · intro f hf
    simp only [List.take_succ_cons, List.take_zero, List.mem_cons, List.not_mem_nil,
      or_false] at hf
    rcases hf with rfl | rfl | rfl | rfl | rfl | rfl | rfl <;> assumption

/-- Parsing a well-formed 6-field definition-style MATCH line yields the
record of its fields with an empty snippet inserted second. -/
lemma parseMatchLine_defn (f0 f2 f3 f4 f5 f6 : List Char) (n2 n3 : Int)
    (h0 : ',' ∉ f0) (h2 : ',' ∉ f2) (h3 : ',' ∉ f3)
    (h4 : ',' ∉ f4) (h5 : ',' ∉ f5) (h6 : ',' ∉ f6)
    (h2i : pyInt f2 = some n2) (h3i : pyInt f3 = some n3) :
    parseMatchLine false (matchString ++ joinSep ',' [f0, f2, f3, f4, f5, f6]) =
      Except.ok ⟨f0, [], n2, n3, f4, f5, f6⟩ := by
  have hsplit := pySplit_joinSep_exact ',' [f0, f2, f3, f4, f5, f6] 6 (by simp)
    (by simp) ?_
  · rw [parseMatchLine]
    simp only [List.drop_left, Bool.false_eq_true, if_false]
    rw [hsplit, insertSnd]
    exact mkResult_explicit f0 [] f2 f3 f4 f5 f6 [] n2 n3 h2i h3i
  · intro f hf
    simp only [List.mem_cons, List.not_mem_nil, or_false] at hf
    rcases hf with rfl | rfl | rfl | rfl | rfl | rfl <;> assumption

/-- Python's `int` inverts the canonical rendering of a natural number. -/
lemma pyInt_natRepr (m : Nat) : pyInt (natRepr m) = some (m : Int) := by
  have h := pyInt_intRepr (m : Int)
  rw [intRepr, if_neg (by omega)] at h
  simpa using h

/-- C1: for every request whose racer subprocess exits with nonzero status,
`run_racer` returns the empty result list together with a diagnostic
holding the joined command line, the exit code and the captured output and
error, and no exception is raised. -/
theorem c1_engine_failure_logged_empty (racerBin contextPath : List Char)
    (cmdList0 : List (List Char)) (exitCode : Int) (output : List (List Char))
    (err : List Char) (h : exitCode ≠ 0) :
    run_racer true racerBin cmdList0 contextPath exitCode output err =
      Except.ok ⟨[], some ⟨joinSep ' ' (buildCmd racerBin cmdList0 contextPath),
        exitCode, output, err⟩⟩ := by
  simp [run_racer, h]

/-- Witness for C1 at exit code 1 with nonempty stdout. -/
theorem c1_engine_failure_logged_empty_witness :
    run_racer true "racer".toList ["complete-with-snippet".toList, ['1'], ['0']]
        "-".toList 1 ["MATCH x".toList] [] =
      Except.ok ⟨[], some ⟨joinSep ' ' (buildCmd "racer".toList
        ["complete-with-snippet".toList, ['1'], ['0']] "-".toList),
        1, ["MATCH x".toList], []⟩⟩ :=
  c1_engine_failure_logged_empty "racer".toList "-".toList
    ["complete-with-snippet".toList, ['1'], ['0']] 1 ["MATCH x".toList] [] (by decide)

/-- C2: a well-formed 7-field `;`-delimited MATCH line parsed under
`complete-with-snippet` yields the record of its seven fields in order
(rows and columns read as integers), and reconstructing the line from the
record round-trips exactly. -/
theorem c2_snippet_line_roundtrip (f0 f1 f4 f5 f6 : List Char) (n2 n3 : Int)
    (h0 : ';' ∉ f0) (h1 : ';' ∉ f1) (h4 : ';' ∉ f4) (h5 : ';' ∉ f5) (h6 : ';' ∉ f6) :
    parseMatchLine true
        (matchString ++ joinSep ';' [f0, f1, intRepr n2, intRepr n3, f4, f5, f6]) =
      Except.ok ⟨f0, f1, n2, n3, f4, f5, f6⟩ ∧
    reconstructSnippetLine ⟨f0, f1, n2, n3, f4, f5, f6⟩ =
      matchString ++ joinSep ';' [f0, f1, intRepr n2, intRepr n3, f4, f5, f6] := by
  refine ⟨?_, rfl⟩
  exact parseMatchLine_snippet f0 f1 (intRepr n2) (intRepr n3) f4 f5 f6 n2 n3 h0 h1
    (not_mem_intRepr ';' (by decide) (by decide) n2)
    (not_mem_intRepr ';' (by decide) (by decide) n3)
    h4 h5 h6 (pyInt_intRepr n2) (pyInt_intRepr n3)

/-- Witness for C2 on the line `MATCH foo;foo();3;10;/tmp/x.rs;Function;fn foo()`. -/
theorem c2_snippet_line_roundtrip_witness :
    parseMatchLine true
        (matchString ++ joinSep ';' ["foo".toList, "foo()".toList, intRepr 3, intRepr 10,
          "/tmp/x.rs".toList, "Function".toList, "fn foo()".toList]) =
      Except.ok ⟨"foo".toList, "foo()".toList, 3, 10, "/tmp/x.rs".toList,
        "Function".toList, "fn foo()".toList⟩ ∧
    reconstructSnippetLine ⟨"foo".toList, "foo()".toList, 3, 10, "/tmp/x.rs".toList,
        "Function".toList, "fn foo()".toList⟩ =
      matchString ++ joinSep ';' ["foo".toList, "foo()".toList, intRepr 3, intRepr 10,
        "/tmp/x.rs".toList, "Function".toList, "fn foo()".toList] :=
  c2_snippet_line_roundtrip "foo".toList "foo()".toList "/tmp/x.rs".toList
    "Function".toList "fn foo()".toList 3 10
    (by decide) (by decide) (by decide) (by decide) (by decide)

/-- C3: a well-formed 6-field `,`-delimited MATCH line parsed under
`find-definition` yields a record with an empty snippet and the same
7-field shape and meaning as the snippet form: parsing the corresponding
`;`-delimited line with an explicit empty snippet field gives the same
record. -/
theorem c3_definition_line_empty_snippet (f0 f4 f5 f6 : List Char) (n2 n3 : Int)
    (h0 : ',' ∉ f0) (h4 : ',' ∉ f4) (h5 : ',' ∉ f5) (h6 : ',' ∉ f6)
    (h0' : ';' ∉ f0) (h4' : ';' ∉ f4) (h5' : ';' ∉ f5) (h6' : ';' ∉ f6) :
    parseMatchLine false
        (matchString ++ joinSep ',' [f0, intRepr n2, intRepr n3, f4, f5, f6]) =
      Except.ok ⟨f0, [], n2, n3, f4, f5, f6⟩ ∧
    parseMatchLine false
        (matchString ++ joinSep ',' [f0, intRepr n2, intRepr n3, f4, f5, f6]) =
      parseMatchLine true
        (matchString ++ joinSep ';' [f0, [], intRepr n2, intRepr n3, f4, f5, f6]) := by
  have hdefn := parseMatchLine_defn f0 (intRepr n2) (intRepr n3) f4 f5 f6 n2 n3 h0
    (not_mem_intRepr ',' (by decide) (by decide) n2)
    (not_mem_intRepr ',' (by decide) (by decide) n3)
    h4 h5 h6 (pyInt_intRepr n2) (pyInt_intRepr n3)
  have hsnip := parseMatchLine_snippet f0 [] (intRepr n2) (intRepr n3) f4 f5 f6 n2 n3 h0'
    (by simp)
    (not_mem_intRepr ';' (by decide) (by decide) n2)
    (not_mem_intRepr ';' (by decide) (by decide) n3)
    h4' h5' h6' (pyInt_intRepr n2) (pyInt_intRepr n3)
  exact ⟨hdefn, by rw [hdefn, hsnip]⟩

/-- Witness for C3 on the line `MATCH foo,3,10,/tmp/x.rs,Function,fn foo()`. -/
theorem c3_definition_line_empty_snippet_witness :
    parseMatchLine false
        (matchString ++ joinSep ',' ["foo".toList, intRepr 3, intRepr 10,
          "/tmp/x.rs".toList, "Function".toList, "fn foo()".toList]) =
      Except.ok ⟨"foo".toList, [], 3, 10, "/tmp/x.rs".toList,
        "Function".toList, "fn foo()".toList⟩ ∧
    parseMatchLine false
        (matchString ++ joinSep ',' ["foo".toList, intRepr 3, intRepr 10,
          "/tmp/x.rs".toList, "Function".toList, "fn foo()".toList]) =
      parseMatchLine true
        (matchString ++ joinSep ';' ["foo".toList, [], intRepr 3, intRepr 10,
          "/tmp/x.rs".toList, "Function".toList, "fn foo()".toList]) :=
  c3_definition_line_empty_snippet "foo".toList "/tmp/x.rs".toList "Function".toList
    "fn foo()".toList 3 10 (by decide) (by decide) (by decide) (by decide)
    (by decide) (by decide) (by decide) (by decide)

/-- C4: the presenter's sort orders parsed records by nondecreasing kind
rank with the fixed ranking Module < Function < Struct < Trait < Type <
Enum < anything else, permutes the input, and is stable: records of equal
kind keep their relative engine-output order. -/
theorem c4_stable_sort_by_kind_rank (rs : List Result) (t : List Char)
    (ht : t ∉ [moduleKind, functionKind, structKind, traitKind, typeKind, enumKind]) :
    (sortResults rs).Pairwise (fun a b => kindRank a.type ≤ kindRank b.type) ∧
    (sortResults rs).Perm rs ∧
    (∀ u : List Char, (sortResults rs).filter (fun r => r.type == u) =
      rs.filter (fun r => r.type == u)) ∧
    kindRank moduleKind < kindRank functionKind ∧
    kindRank functionKind < kindRank structKind ∧
    kindRank structKind < kindRank traitKind ∧
    kindRank traitKind < kindRank typeKind ∧
    kindRank typeKind < kindRank enumKind ∧
    kindRank enumKind < kindRank t := by
  refine ⟨sortResults_pairwise rs, sortResults_perm rs, fun u => filter_sortResults u rs,
    by decide, by decide, by decide, by decide, by decide, ?_⟩
  simp only [List.mem_cons, List.not_mem_nil, or_false, not_or] at ht
  obtain ⟨h1, h2, h3, h4, h5, h6⟩ := ht
  have hrank : kindRank t = 100 := by simp [kindRank, h1, h2, h3, h4, h5, h6]
  rw [hrank]
  decide

/-- Witness for C4: two Enum-kind records keep their relative order below a
Module-kind record, and an unknown kind ranks below Enum. -/
theorem c4_stable_sort_by_kind_rank_witness :
    (sortResults [⟨['a'], [], 1, 1, [], enumKind, []⟩, ⟨['b'], [], 2, 2, [], enumKind, []⟩,
        ⟨['c'], [], 3, 3, [], moduleKind, []⟩]).filter (fun r => r.type == enumKind) =
      [⟨['a'], [], 1, 1, [], enumKind, []⟩, ⟨['b'], [], 2, 2, [], enumKind, []⟩] ∧
    kindRank enumKind < kindRank "Macro".toList := by
  have h := c4_stable_sort_by_kind_rank
    [⟨['a'], [], 1, 1, [], enumKind, []⟩, ⟨['b'], [], 2, 2, [], enumKind, []⟩,
      ⟨['c'], [], 3, 3, [], moduleKind, []⟩] "Macro".toList (by decide)
  refine ⟨?_, h.2.2.2.2.2.2.2.2⟩
  rw [h.2.2.1 enumKind]
  decide

/-- C5: a definition request navigates exactly when one record is parsed,
to that record's normalized path, row and column; zero or several records
produce no navigation action, and the goto-definition command reports
exactly the target computed from the parsed records. -/
theorem c5_single_result_navigation (platform : List Char) (r r1 r2 : Result)
    (rest : List Result) (racerBin contextPath err : List Char) (row col : Nat)
    (output : List (List Char)) (rs : List Result)
    (h : parseOutput false output = Except.ok rs) :
    navTarget platform [r] = some (normPath platform r.path, r.row, r.column) ∧
    navTarget platform [] = none ∧
    navTarget platform (r1 :: r2 :: rest) = none ∧
    goto_definition_core platform true racerBin contextPath row col 0 output err =
      Except.ok (navTarget platform rs) := by
  refine ⟨rfl, rfl, rfl, ?_⟩
  have hflag : ((definitionCmdArgs row col).head? == some snippetCmdName) = false := by
    rw [show (definitionCmdArgs row col).head? = some defCmdName from rfl]
    decide
  rw [goto_definition_core]
  simp only [run_racer, hflag, h, if_true]

/-- Witness for C5: one parsed definition record yields its navigation
target through the full goto-definition path. -/
theorem c5_single_result_navigation_witness :
    navTarget "linux".toList [⟨"foo".toList, [], 3, 10, "/tmp/x.rs".toList,
        "Function".toList, "fn".toList⟩] =
      some (normPath "linux".toList "/tmp/x.rs".toList, 3, 10) ∧
    navTarget "linux".toList [] = none ∧
    navTarget "linux".toList [⟨"foo".toList, [], 3, 10, "/tmp/x.rs".toList,
        "Function".toList, "fn".toList⟩, ⟨"foo".toList, [], 3, 10, "/tmp/x.rs".toList,
        "Function".toList, "fn".toList⟩] = none ∧
    goto_definition_core "linux".toList true "racer".toList "-".toList 2 9 0
        ["MATCH foo,3,10,/tmp/x.rs,Function,fn".toList] [] =
      Except.ok (navTarget "linux".toList [⟨"foo".toList, [], 3, 10, "/tmp/x.rs".toList,
        "Function".toList, "fn".toList⟩]) :=
  c5_single_result_navigation "linux".toList
    ⟨"foo".toList, [], 3, 10, "/tmp/x.rs".toList, "Function".toList, "fn".toList⟩
    ⟨"foo".toList, [], 3, 10, "/tmp/x.rs".toList, "Function".toList, "fn".toList⟩
    ⟨"foo".toList, [], 3, 10, "/tmp/x.rs".toList, "Function".toList, "fn".toList⟩
    [] "racer".toList "-".toList [] 2 9
    ["MATCH foo,3,10,/tmp/x.rs,Function,fn".toList]
    [⟨"foo".toList, [], 3, 10, "/tmp/x.rs".toList, "Function".toList, "fn".toList⟩]
    (by decide)

/-- C6: the subprocess argument vector is exactly
`[binary, command, row, column, context_path, "-"]` for both request
kinds. -/
theorem c6_argument_vector (racerBin contextPath : List Char) (row col : Nat) :
    buildCmd racerBin (completionCmdArgs row col) contextPath =
      [racerBin, snippetCmdName, natRepr (row + 1), natRepr col, contextPath, dashArg] ∧
    buildCmd racerBin (definitionCmdArgs row col) contextPath =
      [racerBin, defCmdName, natRepr (row + 1), natRepr col, contextPath, dashArg] :=
  ⟨rfl, rfl⟩

/-- C7 (amended): when the racer binary cannot be executed, the completion
path catches the fault, logs a message and yields no results, but the
goto-definition path has no handler and propagates the raw
`FileNotFoundError`. -/
theorem c7_engine_not_found_amended (platform racerBin contextPath : List Char)
    (row col : Nat) (exitCode : Int) (output : List (List Char)) (err : List Char) :
    on_query_completions_core false racerBin contextPath row col exitCode output err =
      Except.ok CompletionOutcome.engineMissing ∧
    goto_definition_core platform false racerBin contextPath row col exitCode output err =
      Except.error PyErr.fileNotFound := by
  constructor
  · simp [on_query_completions_core, run_racer]
  · simp [goto_definition_core, run_racer]

/-- Counterexample for C7 as stated: for the definition request kind the
engine-not-found fault is not absorbed but propagates as a raw exception. -/
theorem c7_engine_not_found_counterexample :
    goto_definition_core "linux".toList false "racer".toList "-".toList 0 0 0 [] [] =
      Except.error PyErr.fileNotFound := by
  decide

/-- C8 (amended): the row sent to racer is the editor row converted to
1-based, but the column is passed through unchanged (0-based): the third
and fourth command-line entries decode to `row + 1` and `col`. -/
theorem c8_row_one_based_amended (racerBin contextPath : List Char) (row col : Nat) :
    (buildCmd racerBin (completionCmdArgs row col) contextPath).get? 2 =
      some (natRepr (row + 1)) ∧
    (buildCmd racerBin (completionCmdArgs row col) contextPath).get? 3 =
      some (natRepr col) ∧
    (buildCmd racerBin (definitionCmdArgs row col) contextPath).get? 2 =
      some (natRepr (row + 1)) ∧
    (buildCmd racerBin (definitionCmdArgs row col) contextPath).get? 3 =
      some (natRepr col) ∧
    pyInt (natRepr (row + 1)) = some ((row : Int) + 1) ∧
    pyInt (natRepr col) = some (col : Int) := by
  refine ⟨rfl, rfl, rfl, rfl, ?_, pyInt_natRepr col⟩
  rw [pyInt_natRepr (row + 1)]
  simp

/-- Counterexample for C8 as stated: at editor coordinates (0, 0) the
column argument is the 0-based `"0"`, not the 1-based `"1"` the claim
requires. -/
theorem c8_column_not_one_based_counterexample :
    (buildCmd "racer".toList (completionCmdArgs 0 0) "-".toList).get? 3 = some ['0'] ∧
    some ['0'] ≠ some (natRepr (0 + 1)) := by
  refine ⟨rfl, ?_⟩
  decide

/-- C9: a line starting with `MATCH ` but carrying fewer than seven
`;`-delimited fields makes `Result` construction fault with an
out-of-range error even on exit status zero, and the fault escapes
`run_racer`. -/
theorem c9_short_match_line_faults :
    (pySplit ';' 7 "foo".toList).length < 7 ∧
    run_racer true "racer".toList ["complete-with-snippet".toList, ['1'], ['0']]
        "-".toList 0 ["MATCH foo".toList] [] = Except.error PyErr.indexError := by
  exact ⟨by decide, by decide⟩

/-- C10: a snippet-style MATCH line with more than seven `;`-separated
fields still parses: the record is built from the first seven fields, so
the context ends at the seventh `;` and all later text is dropped. -/
theorem c10_extra_fields_discarded (f0 f1 f4 f5 f6 g : List Char)
    (gs : List (List Char)) (n2 n3 : Int)
    (h0 : ';' ∉ f0) (h1 : ';' ∉ f1) (h4 : ';' ∉ f4) (h5 : ';' ∉ f5) (h6 : ';' ∉ f6) :
    parseMatchLine true (matchString ++
        joinSep ';' (f0 :: f1 :: intRepr n2 :: intRepr n3 :: f4 :: f5 :: f6 :: g :: gs)) =
      Except.ok ⟨f0, f1, n2, n3, f4, f5, f6⟩ :=
  parseMatchLine_snippet_extra f0 f1 (intRepr n2) (intRepr n3) f4 f5 f6 g gs n2 n3 h0 h1
    (not_mem_intRepr ';' (by decide) (by decide) n2)
    (not_mem_intRepr ';' (by decide) (by decide) n3)
    h4 h5 h6 (pyInt_intRepr n2) (pyInt_intRepr n3)

/-- Witness for C10 on a line with nine `;`-separated fields. -/
theorem c10_extra_fields_discarded_witness :
    parseMatchLine true (matchString ++
        joinSep ';' ("foo".toList :: "foo()".toList :: intRepr 3 :: intRepr 10 ::
          "/tmp/x.rs".toList :: "Function".toList :: "fn foo()".toList ::
          "extra".toList :: ["more".toList])) =
      Except.ok ⟨"foo".toList, "foo()".toList, 3, 10, "/tmp/x.rs".toList,
        "Function".toList, "fn foo()".toList⟩ :=
  c10_extra_fields_discarded "foo".toList "foo()".toList "/tmp/x.rs".toList
    "Function".toList "fn foo()".toList "extra".toList ["more".toList] 3 10
    (by decide) (by decide) (by decide) (by decide) (by decide)
